import Mathlib

/-!
Verification of the WEkEO HDA notebook repository (wekeo-jupyter-lab).

The repository consists of three Jupyter notebooks driving the WEkEO
Harmonised Data Access (HDA) REST API: a generic how-to notebook
(`wekeo-hda` how-to, `src/unnamed/part_000`), an atmosphere retrieval
notebook (`20_sentinel3_OLCI_L1_retrieve.ipynb`) and an ocean case study
(`Marine_heatwaves_S3_CMEMS.ipynb`).  The helper module
`hda_api_functions` itself is not part of the sources; where its
behaviour is needed it is modelled from the spec, and those definitions
are marked `Modelled from the spec:`.  Everything else is translated
from the notebook code cells and from the execution outputs recorded in
the notebooks.
-/

/-! ## Workflow stages (C1)

Each notebook drives the HDA client workflow through the helper calls
`init`, `get_access_token`, `acceptTandC`, `get_job_id`,
`get_results_list`, `get_order_ids`, `download_data`, followed by
numeric analysis / plotting.  We record, for each notebook, the sequence
of workflow-stage invocations its code performs, in the order they are
written in the script. -/

inductive Stage : Type
  | init
  | getAccessToken
  | acceptTandC
  | getJobId
  | getResultsList
  | getOrderIds
  | downloadData
  | analysis
  deriving DecidableEq, Repr

def Stage.rank : Stage → Nat
  | .init => 0
  | .getAccessToken => 1
  | .acceptTandC => 2
  | .getJobId => 3
  | .getResultsList => 4
  | .getOrderIds => 5
  | .downloadData => 6
  | .analysis => 7

def Stage.all : List Stage :=
  [.init, .getAccessToken, .acceptTandC, .getJobId, .getResultsList,
   .getOrderIds, .downloadData, .analysis]

/-- `orderedFrom seen tr`: walking down the trace `tr`, every stage is
only ever executed when all stages of strictly smaller rank have already
been executed (they appear in `seen`, the reversed prefix of executed
stages). -/
def orderedFrom : List Stage → List Stage → Prop
  | _, [] => True
  | seen, t :: rest =>
      (∀ s ∈ Stage.all, s.rank < t.rank → s ∈ seen) ∧ orderedFrom (t :: seen) rest

instance instDecOrderedFrom : (seen tr : List Stage) → Decidable (orderedFrom seen tr)
  | _, [] => by rw [orderedFrom]; exact inferInstance
  | seen, t :: rest => by
      rw [orderedFrom]
      have := instDecOrderedFrom (t :: seen) rest
      exact inferInstance

/-- A trace respects the workflow order: no stage runs before every
stage of an earlier rank has run. -/
def stageOrdered (tr : List Stage) : Prop := orderedFrom [] tr

/-- Workflow calls of the HDA how-to notebook (`src/unnamed/part_000`):
`init`, `get_access_token`, `acceptTandC`, `get_job_id`,
`get_results_list`, `get_order_ids`, `download_data`, one after the
other, each in its own cell. -/
def howtoTrace : List Stage :=
  [.init, .getAccessToken, .acceptTandC, .getJobId, .getResultsList,
   .getOrderIds, .downloadData]

/-- Workflow calls of `20_sentinel3_OLCI_L1_retrieve.ipynb`: the same
seven helper calls in the same order. -/
def atmosphereTrace : List Stage :=
  [.init, .getAccessToken, .acceptTandC, .getJobId, .getResultsList,
   .getOrderIds, .downloadData]

/-- Body of the pagination loop of the SLSTR download cell of
`Marine_heatwaves_S3_CMEMS.ipynb`: each iteration calls
`get_results_list`, `get_order_ids`, `download_data`. -/
def slstrLoopBlock : List Stage :=
  [.getResultsList, .getOrderIds, .downloadData]

/-- Workflow calls of the SLSTR part of the marine-heatwaves notebook,
for a run of the pagination loop with `p` iterations: session build-up
(`init`, `get_access_token`, `acceptTandC`), job submission
(`get_job_id`), then `p` rounds of results/orders/download, and finally
the unzip/plotting analysis cells. -/
def mhwSlstrTrace (p : Nat) : List Stage :=
  [.init, .getAccessToken, .acceptTandC, .getJobId]
    ++ (List.replicate p slstrLoopBlock).flatten ++ [.analysis]

/-! ## The SST time-series download of the marine-heatwaves notebook (C10)

The notebook builds three parallel lists `start_dates`, `end_dates`,
`dataset_ids`: the reprocessed (REP) SST product for the years
2008..2019 and the near-real-time (NRT) product for 2020..2021.  It then
loops over `zip(start_dates, end_dates, dataset_ids)`, running one HDA
workflow per entry and downloading to a user-chosen filename
`METOFFICE-GLO-SST-L4-{tag}_{date_tag}.nc`. -/

def start_dates : List String :=
  ((List.range' 2008 12).map fun ii => toString ii ++ "-01-01T00:00:00.000Z")
    ++ ((List.range' 2020 2).map fun ii => toString ii ++ "-01-01T00:00:00.000Z")

def end_dates : List String :=
  ((List.range' 2008 12).map fun ii => toString ii ++ "-12-31T00:00:00.000Z")
    ++ ((List.range' 2020 2).map fun ii => toString ii ++ "-12-31T00:00:00.000Z")

def dataset_ids : List String :=
  ((List.range' 2008 12).map fun _ =>
      "EO:MO:DAT:SST_GLO_SST_L4_REP_OBSERVATIONS_010_011")
    ++ ((List.range' 2020 2).map fun _ =>
      "EO:MO:DAT:SST_GLO_SST_L4_NRT_OBSERVATIONS_010_001")

/-- The per-iteration triple `(start_date, end_date, dataset_id)` of the
SST download loop, `zip(start_dates, end_dates, dataset_ids)`. -/
def sst_download_jobs : List ((String × String) × String) :=
  (start_dates.zip end_dates).zip dataset_ids

/-! Character-list implementations of the Python string primitives the
notebooks use.  (Lean's built-in `String.splitOn` and the `String` order
are implemented on byte positions and do not reduce in the kernel, so we
work on the underlying character lists, which Python string semantics
match code point by code point.) -/

/-- `isPrefOf pre cs`: the character list `pre` starts the list `cs`. -/
def isPrefOf : List Char → List Char → Bool
  | [], _ => true
  | _ :: _, [] => false
  | a :: as, b :: bs => a = b && isPrefOf as bs

/-- Occurrence of the character sequence `needle` anywhere in a list. -/
def containsSeq (needle : List Char) : List Char → Bool
  | [] => needle.isEmpty
  | c :: rest => isPrefOf needle (c :: rest) || containsSeq needle rest

/-- Python substring membership `sub in s` (for non-empty `sub`). -/
def containsSub (s sub : String) : Bool := containsSeq sub.data s.data

/-- Split a character list at every occurrence of the separator, like
Python `str.split(sep)` with a one-character separator. -/
def splitChar (sep : Char) : List Char → List (List Char)
  | [] => [[]]
  | c :: rest =>
      match splitChar sep rest with
      | [] => if c = sep then [[], []] else [[c]]
      | h :: t => if c = sep then [] :: h :: t else (c :: h) :: t

/-- Python `s.split(sep)` for a one-character separator. -/
def py_split (s : String) (sep : Char) : List String :=
  (splitChar sep s.data).map fun cs => ⟨cs⟩

/-- `date_tag = start_date.split('T')[0] + '_' + end_date.split('T')[0]`. -/
def date_tag (start_date end_date : String) : String :=
  ((py_split start_date 'T').headD "") ++ "_" ++ ((py_split end_date 'T').headD "")

/-- `tag = 'XNRT' if 'NRT' in dataset_id else 'REP'`. -/
def sst_tag (dsid : String) : String :=
  if containsSub dsid "NRT" then "XNRT" else "REP"

/-- `user_filename='METOFFICE-GLO-SST-L4-{0}_{1}.nc'.format(tag, date_tag)`. -/
def sst_user_filename (dsid start_date end_date : String) : String :=
  "METOFFICE-GLO-SST-L4-" ++ sst_tag dsid ++ "_" ++ date_tag start_date end_date ++ ".nc"

/-- The filenames produced by the SST download loop, in loop order. -/
def user_filenames : List String :=
  sst_download_jobs.map fun x => sst_user_filename x.2 x.1.1 x.1.2

/-- Lexicographic (code-point) comparison of character lists, non-strict:
this is how Python compares strings with `<=`. -/
def charLe : List Char → List Char → Bool
  | [], _ => true
  | _ :: _, [] => false
  | a :: as, b :: bs => if a = b then charLe as bs else decide (a < b)

/-- Lexicographic (code-point) comparison of character lists, strict. -/
def charLt : List Char → List Char → Bool
  | [], [] => false
  | [], _ :: _ => true
  | _ :: _, [] => false
  | a :: as, b :: bs => if a = b then charLt as bs else decide (a < b)

/-- Python string comparison `a <= b` (lexicographic by code points). -/
def pyStrLe (a b : String) : Bool := charLe a.data b.data

/-- Python string comparison `a < b` (lexicographic by code points). -/
def pyStrLt (a b : String) : Bool := charLt a.data b.data

/-- Python `sorted` on a list of strings: a stable sort by the
lexicographic code-point order. -/
def py_sorted (l : List String) : List String :=
  l.mergeSort pyStrLe

/-- Python `s.startswith(pre)`, used to state which files carry which tag. -/
def strStarts (s pre : String) : Bool := isPrefOf pre.data s.data

/-- The start-date field of a downloaded SST filename
(`METOFFICE-GLO-SST-L4-TAG_YYYY-MM-DD_YYYY-MM-DD.nc` has the start date
as the second underscore-separated component). -/
def sst_file_start_date (f : String) : String := (py_split f '_').getD 1 ""

/-- Workflow calls of the SST part of the marine-heatwaves notebook:
one session build-up, then one job/results/orders/download round per
entry of `zip(start_dates, end_dates, dataset_ids)`, then the
time-series analysis and plotting cells. -/
def mhwSstTrace : List Stage :=
  [.init, .getAccessToken, .acceptTandC]
    ++ (sst_download_jobs.map fun _ =>
        [Stage.getJobId, .getResultsList, .getOrderIds, .downloadData]).flatten
    ++ [.analysis]

instance (tr : List Stage) : Decidable (stageOrdered tr) := instDecOrderedFrom [] tr

/-! ## The pagination loop of the SLSTR download cell (C3)

```
total_results = 1e6
found_results = 0
page_count = -1
while found_results < total_results:
    page_count = page_count + 1
    HAPI_dict = hapi.get_results_list(HAPI_dict, page=page_count, verbose=verbose)
    total_results = HAPI_dict['results']['totItems']
    found_results = found_results + HAPI_dict['results']['itemsInPage']
    ... get_order_ids / download_data (do not touch the loop variables) ...
```

`page_count` is `-1` before the loop and is incremented before the page
request, so iteration `k` (counting from 0) requests page `k`; we carry
the list `reqs` of pages requested so far, whose length is the next
page number.  The environment is a function `pages` giving, for each
requested page number, the `totItems` and `itemsInPage` fields of the
JSON results answer.  The Python loop has no built-in bound, so the
embedding is fuel-indexed; termination is the claim to prove. -/

structure PageResult where
  totItems : Nat
  itemsInPage : Nat

def results_pages_loop (pages : Nat → PageResult) :
    Nat → Nat → Nat → List Nat → Option (Nat × List Nat)
  | 0, found, total, reqs =>
      if found < total then none else some (found, reqs)
  | fuel + 1, found, total, reqs =>
      if found < total then
        let r := pages reqs.length
        results_pages_loop pages fuel (found + r.itemsInPage) r.totItems
          (reqs ++ [reqs.length])
      else some (found, reqs)

/-- The SLSTR pagination loop with its initial values:
`found_results = 0`, `total_results = 1e6`, no page requested yet. -/
def slstr_pagination (pages : Nat → PageResult) (fuel : Nat) : Option (Nat × List Nat) :=
  results_pages_loop pages fuel 0 1000000 []

/-! ## The SLSTR download cell as a statement sequence (C4)

The cell guarded by `if download_data:` performs, in order: an
assignment to `total_results`, three session calls, the JSON query
load, prints, the `get_job_id` call, more prints and assignments, the
bare expression statement `asdf`, and the pagination `while` loop.
Evaluating a bare name that is not bound in the environment raises
`NameError` in Python and aborts the cell. -/

inductive CellStmt : Type
  | assign (name : String)
  | call (s : Stage)
  | printOut
  | nameExpr (name : String)
  | whileLoop (body : List Stage)
  deriving Repr

structure CellState where
  env : List String
  calls : List Stage
  loopEntered : Bool
  deriving Repr, DecidableEq

/-- One Python statement of the cell.  `iters` is the number of
iterations the `while` loop would perform if reached. -/
def execStmt (iters : Nat) (st : CellState) : CellStmt → Except (String × CellState) CellState
  | .assign n => .ok { st with env := n :: st.env }
  | .call s => .ok { st with env := "HAPI_dict" :: st.env, calls := st.calls ++ [s] }
  | .printOut => .ok st
  | .nameExpr n =>
      if st.env.contains n then .ok st
      else .error ("NameError: name " ++ n ++ " is not defined", st)
  | .whileLoop body =>
      .ok { st with loopEntered := true,
                    calls := st.calls ++ (List.replicate iters body).flatten }

def execStmts (iters : Nat) : List CellStmt → CellState → Except (String × CellState) CellState
  | [], st => .ok st
  | stmt :: rest, st =>
      match execStmt iters st stmt with
      | .ok st1 => execStmts iters rest st1
      | .error e => .error e

/-- The statements of the `download_data` branch of the SLSTR download
cell of `Marine_heatwaves_S3_CMEMS.ipynb`, in source order. -/
def slstr_download_cell : List CellStmt :=
  [.assign "total_results",
   .call .init, .call .getAccessToken, .call .acceptTandC,
   .assign "query",
   .printOut,                 -- print('Launching job...')
   .call .getJobId,
   .printOut, .printOut,      -- print('Getting results...') / print('------------------')
   .assign "found_results", .assign "page_count",
   .printOut,                 -- print(HAPI_dict)
   .nameExpr "asdf",
   .whileLoop [.getResultsList, .getOrderIds, .downloadData]]

/-- Names bound in the marine-heatwaves notebook before the SLSTR
download cell runs: the imports and the variables assigned by the
preceding cells. -/
def mhw_notebook_env : List String :=
  ["os", "sys", "json", "ZipFile", "shutil", "datetime", "np", "HTML",
   "xr", "plt", "gridspec", "glob", "warnings", "hapi", "img", "sstp", "mhw",
   "user_name", "password", "api_key", "download_dir_path", "JSON_query_dir",
   "dataset_id", "download_data", "JSON_query_file", "verbose"]

/-- Run the SLSTR download cell: the body only executes when the
`download_data` flag is `True`. -/
def run_slstr_cell (dd : Bool) (iters : Nat) : Except (String × CellState) CellState :=
  if dd then execStmts iters slstr_download_cell ⟨mhw_notebook_env, [], false⟩
  else .ok ⟨mhw_notebook_env, [], false⟩

/-! ## Model of `hda_api_functions` (C5, C6, C9)

The helper module `hda_api_functions` is referenced by all three
notebooks but its source is not part of the repository snapshot; the
definitions below are modelled from the spec (its description of the
helper functions and the glossary) and from the call sites and recorded
outputs in the notebooks.  The remote service is abstracted by `HdaApi`:
what token it hands out, which job ID it assigns to a query, which
result files a completed job has, which order ID it assigns to a file of
a job, and the size/rate/time figures a download run reports. -/

structure HdaApi where
  accessToken : String
  jobIdOf : String → String
  resultsOf : String → List String
  orderIdOf : String → String → String
  sizeStrOf : String → String
  barStrOf : String → String
  rateStrOf : String → String
  progStrOf : String → String
  avgRateStrOf : String → String
  elapsedStrOf : String → String

/-- The `hda_dict` dictionary threaded through the workflow calls. -/
structure HdaDict where
  dataset_id : String
  api_key : String
  download_dir_path : String
  access_token : Option String
  tandc_accepted : Bool
  job_id : Option String
  results : List String
  order_ids : List String
  filenames : List String
  deriving Repr, DecidableEq

/-- Modelled from the spec: `init(dataset_id, api_key, download_dir_path)`
initialises the `hda_dict` dictionary with the dataset ID, the API key
and the download directory; no job, results or orders exist yet. -/
def init (dataset_id api_key download_dir_path : String) : HdaDict :=
  { dataset_id := dataset_id, api_key := api_key,
    download_dir_path := download_dir_path,
    access_token := none, tandc_accepted := false, job_id := none,
    results := [], order_ids := [], filenames := [] }

/-- Modelled from the spec: `get_access_token` requests an access token
(valid for one hour) and stores it in `hda_dict`. -/
def get_access_token (api : HdaApi) (d : HdaDict) : HdaDict :=
  { d with access_token := some api.accessToken }

/-- Modelled from the spec: `acceptTandC` accepts the terms and
conditions for the account. -/
def acceptTandC (d : HdaDict) : HdaDict :=
  { d with tandc_accepted := true }

/-- Modelled from the spec: `get_job_id` POSTs the JSON query, receives
the job ID the HDA API assigns to the asynchronous data-extraction
request, stores it in `hda_dict`, and polls the status endpoint until
the job status is `completed`. -/
def get_job_id (api : HdaApi) (d : HdaDict) (query : String) : HdaDict :=
  { d with job_id := some (api.jobIdOf query) }

/-- Modelled from the spec: `get_results_list` GETs the list of result
files of the job whose ID is stored in `hda_dict` and stores it as the
results list. -/
def get_results_list (api : HdaApi) (d : HdaDict) : HdaDict :=
  { d with results :=
      match d.job_id with
      | some j => api.resultsOf j
      | none => [] }

/-- Modelled from the spec: `get_order_ids` submits one order per file
of the results list of the job stored in `hda_dict`, polls each order
until completed, and stores the assigned order IDs (one per file, in
results order). -/
def get_order_ids (api : HdaApi) (d : HdaDict) : HdaDict :=
  { d with order_ids :=
      match d.job_id with
      | some j => d.results.map (api.orderIdOf j)
      | none => [] }

/-- What one file download prints, modelled from the spec (a streamed
download with progress printout) and from the printout recorded in the
how-to notebook: the target path, the file size, a running progress bar
with the transfer rate, a completion message, and the elapsed time. -/
def download_print_lines (path size bar rate prog avgRate elapsed : String) : List String :=
  ["Downloading " ++ path,
   "File size is:" ++ size ++ " MB",
   "[" ++ bar ++ "]" ++ rate ++ " Mbps[" ++ prog ++ "] MB downloaded, " ++ avgRate ++ " kbps",
   "Download complete...",
   "Time Elapsed: " ++ elapsed ++ " seconds"]

/-- Result of a `download_data` call: the updated dictionary, the
downloads it triggered — `(filename, order ID used)` pairs — and the
progress report printed for each file. -/
structure DownloadRun where
  dict : HdaDict
  downloads : List (String × String)
  printed : List (List String)
  deriving Repr

/-- Modelled from the spec: `download_data` streams, for each file of
the results list that has been assigned an order ID, the download
triggered by that order ID into the download directory, printing a
progress report per file. -/
def download_data (api : HdaApi) (d : HdaDict) : DownloadRun :=
  let pairs := d.results.zip d.order_ids
  { dict := { d with filenames := pairs.map fun p => d.download_dir_path ++ p.1 },
    downloads := pairs,
    printed := pairs.map fun p =>
      download_print_lines (d.download_dir_path ++ p.1) (api.sizeStrOf p.1)
        (api.barStrOf p.1) (api.rateStrOf p.1) (api.progStrOf p.1)
        (api.avgRateStrOf p.1) (api.elapsedStrOf p.1) }

/-! ## The recorded outputs of the how-to notebook (C2, C9)

`src/unnamed/part_000` records the stdout of an actual run of each
workflow cell.  These transcripts are source material: they are the only
place in the repository where the polling behaviour of `get_job_id` /
`get_order_ids` and the printout of `download_data` are visible. -/

/-- Recorded stdout of the `get_job_id(hda_dict, data)` cell. -/
def get_job_id_output : List String :=
  ["Query successfully submitted. Job ID is _AIq3_hSl985LlGXkmNbBe0BIKI",
   "Next check in 5 seconds",
   "Query successfully submitted. Status is running",
   "Next check in 10 seconds",
   "Query successfully submitted. Status is completed"]

/-- Recorded stdout of the `get_order_ids(hda_dict)` cell. -/
def get_order_ids_output : List String :=
  ["Query successfully submitted. Order ID is rNwI5K4U0mtVS3jWiHnoaaNuPAc",
   "Next check in 5 seconds",
   "Query successfully submitted. Status is completed"]

/-- The full progress bar of the recorded download: a run of 50 `=`
characters (spelled with `replicate` rather than as a literal). -/
def progress_bar_full : String := ⟨List.replicate 50 '='⟩

/-- Recorded stdout of the `download_data(hda_dict, file_extension='.nc')`
cell.  The third line is recorded as the 50-character progress bar
followed by the rate and progress figures. -/
def download_output : List String :=
  ["Downloading /home/javitausia/Documentos/AIFEM/wekeo-jupyter-lab/wekeo-hda/data/waves_spain_forecast.nc",
   "File size is:     0.21 MB",
   "[" ++ progress_bar_full ++ "]     16.82 Mbps[    0.21] MB downloaded, 15885.94 kbps",
   "Download complete...",
   "Time Elapsed: 0.013772182999999938 seconds"]

/-- Digits to the natural number they denote. -/
def digitsToNat (cs : List Char) : Nat :=
  cs.foldl (fun n c => 10 * n + (c.toNat - 48)) 0

/-- Parse a polling announcement `Next check in N seconds`; any other
line yields `none`. -/
def parseNextCheck (s : String) : Option Nat :=
  let pre := "Next check in ".data
  let suf := " seconds".data
  if isPrefOf pre s.data then
    let rest := s.data.drop pre.length
    let digits := rest.takeWhile Char.isDigit
    if digits ≠ [] ∧ rest.drop digits.length = suf then some (digitsToNat digits)
    else none
  else none

/-- The wait durations a polling loop announces between consecutive
status checks, in order of announcement. -/
def announcedWaits (out : List String) : List Nat :=
  out.filterMap parseNextCheck

/-- The claim that a polling transcript announces one fixed wait
duration between every pair of consecutive status checks. -/
def fixed_interval (out : List String) : Prop :=
  ∀ a ∈ announcedWaits out, ∀ b ∈ announcedWaits out, a = b

instance (out : List String) : Decidable (fixed_interval out) := by
  unfold fixed_interval; exact inferInstance

/-! ## The two `try/except` handlers (C7)

The repository has exactly two `try`/`except` blocks: loading the JSON
data descriptor in the how-to notebook, and unzipping a downloaded file
in the marine-heatwaves notebook.  Both have a bare `except:` whose body
is a single `print` of a fixed message. -/

/-- Outcome of running a Python block: a value, or a raised exception. -/
inductive PyResult (α : Type) : Type
  | ok (a : α)
  | raised (e : String)
  deriving Repr, DecidableEq

/-- A `try: body except: print(msg)` statement.  It returns the body's
value (if any), the lines printed by the handler, and how many times the
body ran: the handler swallows any exception — nothing is re-raised
(the function returns normally in all cases) — and the body is never
retried. -/
def tryExceptPrint {α : Type} (body : PyResult α) (msg : String) :
    Option α × List String × Nat :=
  match body with
  | .ok a => (some a, [], 1)
  | .raised _ => (none, [msg], 1)

/-- The `json.load` block of the how-to notebook. -/
def load_json_descriptor (body : PyResult String) : Option String × List String × Nat :=
  tryExceptPrint body
    "Your JSON file is not in the correct format, or is not found, please check it!"

/-- The `ZipFile(...).extractall` block of the marine-heatwaves
notebook (the value is the unit of a successful extract-and-remove). -/
def unzip_try (body : PyResult Unit) : Option Unit × List String × Nat :=
  tryExceptPrint body "Failed to unzip...."

/-! ## The unzip loop of the marine-heatwaves notebook (C8)

```
if download_data:
    for filename in HAPI_dict['filenames']:
        if os.path.splitext(filename)[-1] == '.zip':
            print('Unzipping file')
            try:
                with ZipFile(filename, 'r') as zipObj:
                    zipObj.extractall(os.path.dirname(filename))
                os.remove(filename)
            except:
                print("Failed to unzip....")
```

`os.remove` sits inside the `try`, after the extraction, so it only
runs when `extractall` returned normally.  Whether an extraction
succeeds is environment-determined and is abstracted by a predicate
`extractOk` on the filename. -/

/-- The suffix of a character list starting at its last dot, if any. -/
def afterLastDot : List Char → Option (List Char)
  | [] => none
  | c :: rest =>
      match afterLastDot rest with
      | some e => some e
      | none => if c = '.' then some (c :: rest) else none

/-- The extension part of `os.path.splitext(p)`: the suffix of the last
path component from its last dot, except that leading dots of the
component (hidden-file dots) never begin an extension. -/
def splitext_ext (p : String) : String :=
  let base := (splitChar '/' p.data).getLastD []
  let rest := base.drop (base.takeWhile (fun c => c = '.')).length
  match afterLastDot rest with
  | some e => ⟨e⟩
  | none => ""

/-- File system and console state the unzip loop acts on. -/
structure UnzipState where
  files : List String
  extracted : List String
  printed : List String
  deriving Repr, DecidableEq

/-- One iteration of the unzip loop for `filename`.  Files whose
`splitext` extension is not `.zip` are untouched.  For a `.zip` file
the notebook prints, then extracts; only if the extraction returned
normally does `os.remove(filename)` run; a raised extraction error is
swallowed by the bare `except:`, which prints its fixed message. -/
def unzip_step (extractOk : String → Bool) (st : UnzipState) (filename : String) :
    UnzipState :=
  if splitext_ext filename = ".zip" then
    if extractOk filename then
      { files := st.files.erase filename,
        extracted := st.extracted ++ [filename],
        printed := st.printed ++ ["Unzipping file"] }
    else
      { st with printed := st.printed ++ ["Unzipping file", "Failed to unzip...."] }
  else st

/-- The whole loop `for filename in HAPI_dict['filenames']: ...`. -/
def unzip_loop (extractOk : String → Bool) (st : UnzipState)
    (filenames : List String) : UnzipState :=
  filenames.foldl (unzip_step extractOk) st

/-! # Theorems -/

/-- Claim C1, loop part: once every stage of rank below `downloadData`
has run, any number of further `get_results_list` / `get_order_ids` /
`download_data` rounds followed by the analysis cells keeps the trace
stage-ordered. -/
theorem orderedFrom_slstr_loop (p : Nat) (seen : List Stage)
    (h : ∀ s ∈ Stage.all, s.rank < 7 → s ∈ seen) :
    orderedFrom seen ((List.replicate p slstrLoopBlock).flatten ++ [Stage.analysis]) := by
  induction p generalizing seen with
  | zero =>
      refine ⟨fun s hs hr => h s hs hr, ?_⟩
      rw [orderedFrom]; trivial
  | succ q ih =>
      simp only [List.replicate_succ, List.flatten_cons, List.append_assoc, slstrLoopBlock,
        List.cons_append, List.nil_append]
      refine ⟨fun s hs hr => h s hs (Nat.lt_of_lt_of_le hr (by decide)),
              fun s hs hr => List.mem_cons_of_mem _ (h s hs (Nat.lt_of_lt_of_le hr (by decide))),
              fun s hs hr => List.mem_cons_of_mem _ (List.mem_cons_of_mem _
                (h s hs (Nat.lt_of_lt_of_le hr (by decide)))),
              ?_⟩
      exact ih _ (fun s hs hr => List.mem_cons_of_mem _ (List.mem_cons_of_mem _
        (List.mem_cons_of_mem _ (h s hs hr))))

/-- Claim C1: every notebook runs the HDA workflow in the fixed stage
order — session build-up (`init`, `get_access_token`, `acceptTandC`),
job submission and polling (`get_job_id`), results listing and ordering
(`get_results_list`, `get_order_ids`), download (`download_data`), and
only then analysis and plotting: in the call trace of each notebook
(for any number `p ≥ 1` of pagination-loop iterations in the SLSTR
cell), no stage ever runs before every stage of an earlier rank has
run. -/
theorem hda_workflow_stage_order (p : Nat) (hp : 1 ≤ p) :
    stageOrdered howtoTrace ∧ stageOrdered atmosphereTrace ∧
    stageOrdered (mhwSlstrTrace p) ∧ stageOrdered mhwSstTrace := by
  refine ⟨by decide, by decide, ?_, by decide⟩
  obtain ⟨q, rfl⟩ : ∃ q, p = q + 1 := ⟨p - 1, (Nat.succ_pred_eq_of_pos hp).symm⟩
  show orderedFrom [] (mhwSlstrTrace (q + 1))
  simp only [mhwSlstrTrace, List.replicate_succ, List.flatten_cons, List.append_assoc,
    slstrLoopBlock, List.cons_append, List.nil_append]
  refine ⟨by decide, by decide, by decide, by decide, by decide, by decide, by decide, ?_⟩
  exact orderedFrom_slstr_loop q _ (by decide)

/-- Witness for claim C1 at one pagination-loop iteration. -/
theorem hda_workflow_stage_order_witness :
    1 ≤ 1 ∧ (stageOrdered howtoTrace ∧ stageOrdered atmosphereTrace ∧
      stageOrdered (mhwSlstrTrace 1) ∧ stageOrdered mhwSstTrace) :=
  ⟨Nat.le_refl 1, hda_workflow_stage_order 1 (Nat.le_refl 1)⟩

/-- Claim C2, counterexample: the polling of `get_job_id` does not use
one fixed announced wait duration — the run recorded in the how-to
notebook announces a 5-second wait before the first status check of the
job and a 10-second wait before the second. -/
theorem polling_interval_not_fixed : ¬ fixed_interval get_job_id_output := by
  decide

/-- Claim C2 (amended): between consecutive status checks of the same
request the polling loops announce waits that start at 5 seconds and
double after each check; the recorded `get_job_id` run announces 5 then
10 seconds, the recorded `get_order_ids` run announces 5 seconds. -/
theorem polling_interval_doubles :
    announcedWaits get_job_id_output = [5, 10] ∧
    List.Chain' (fun a b => b = 2 * a) (announcedWaits get_job_id_output) ∧
    announcedWaits get_order_ids_output = [5] := by
  have hw : announcedWaits get_job_id_output = [5, 10] := by decide
  refine ⟨hw, ?_, by decide⟩
  rw [hw]
  exact List.chain'_pair.mpr rfl

/-- Claim C3, auxiliary invariant: once `total_results` holds the fixed
`totItems` value `T`, the loop terminates within `found + fuel ≥ T`
steps, having requested the pages `0, 1, 2, …` in order and accumulated
at least `T` found results. -/
theorem results_pages_loop_spec (pages : Nat → PageResult) (T : Nat)
    (hT : ∀ i, (pages i).totItems = T) (hI : ∀ i, 1 ≤ (pages i).itemsInPage) :
    ∀ (fuel found k : Nat), T ≤ found + fuel →
      ∃ found2 k2,
        results_pages_loop pages fuel found T (List.range k) = some (found2, List.range k2) ∧
        T ≤ found2 := by
  intro fuel
  induction fuel with
  | zero =>
      intro found k h
      refine ⟨found, k, ?_, by omega⟩
      rw [results_pages_loop, if_neg (by omega)]
  | succ n ih =>
      intro found k h
      rw [results_pages_loop]
      by_cases hc : found < T
      · rw [if_pos hc]
        simp only [List.length_range]
        rw [hT k, ← List.range_succ]
        have := hI k
        exact ih (found + (pages k).itemsInPage) (k + 1) (by omega)
      · rw [if_neg hc]
        exact ⟨found, k, rfl, by omega⟩

/-- Claim C3: if every results page reports the same fixed `totItems`
value `T` and a positive `itemsInPage`, the pagination loop of the SLSTR
download cell terminates: some finite fuel lets it return normally,
having requested exactly the pages `0, 1, 2, …` in increasing order and
accumulated `found_results ≥ totItems`. -/
theorem slstr_pagination_terminates (pages : Nat → PageResult) (T : Nat)
    (hT : ∀ i, (pages i).totItems = T) (hI : ∀ i, 1 ≤ (pages i).itemsInPage) :
    ∃ fuel found k,
      slstr_pagination pages fuel = some (found, List.range k) ∧ T ≤ found := by
  have hstep : slstr_pagination pages (T + 2) =
      results_pages_loop pages (T + 1) (0 + (pages 0).itemsInPage) (pages 0).totItems [0] := by
    rw [slstr_pagination]
    show results_pages_loop pages (T + 1 + 1) 0 1000000 [] = _
    rw [results_pages_loop, if_pos (by omega)]
    rfl
  have := hI 0
  obtain ⟨f2, k2, heq, hge⟩ :=
    results_pages_loop_spec pages T hT hI (T + 1) (0 + (pages 0).itemsInPage) 1 (by omega)
  refine ⟨T + 2, f2, k2, ?_, hge⟩
  rw [hstep, hT 0]
  exact heq

/-- Witness for claim C3: three results spread over pages of two items
each. -/
theorem slstr_pagination_terminates_witness :
    ∃ fuel found k,
      slstr_pagination (fun _ => PageResult.mk 3 2) fuel = some (found, List.range k) ∧
      3 ≤ found :=
  slstr_pagination_terminates (fun _ => PageResult.mk 3 2) 3 (fun _ => rfl)
    (fun _ => Nat.le_succ 1)

/-- Claim C4: running the SLSTR download cell with `download_data` set
to `True` evaluates the undefined name `asdf` after `get_job_id` has
returned and before the pagination `while` loop is entered, raising a
`NameError`; the calls made are exactly `init`, `get_access_token`,
`acceptTandC`, `get_job_id` — the loop is never entered, so
`get_results_list`, `get_order_ids` and `download_data` never execute,
whatever the loop would have iterated. -/
theorem slstr_download_cell_name_error (iters : Nat) :
    ∃ st : CellState,
      run_slstr_cell true iters = .error ("NameError: name asdf is not defined", st) ∧
      st.calls = [Stage.init, .getAccessToken, .acceptTandC, .getJobId] ∧
      st.loopEntered = false ∧
      Stage.getResultsList ∉ st.calls ∧
      Stage.getOrderIds ∉ st.calls ∧
      Stage.downloadData ∉ st.calls :=
  ⟨⟨"page_count" :: "found_results" :: "HAPI_dict" :: "query" :: "HAPI_dict" ::
      "HAPI_dict" :: "HAPI_dict" :: "total_results" :: mhw_notebook_env,
    [Stage.init, .getAccessToken, .acceptTandC, .getJobId], false⟩,
   rfl, rfl, rfl, by decide, by decide, by decide⟩

/-- Claim C5: after the job completes, `get_order_ids` assigns one
order ID to each file of the job's results list, and `download_data`
downloads exactly those files — the triggered downloads are the
results files paired with their order IDs, nothing more and nothing
less, and each file's download is triggered via the order ID assigned
to that very file. -/
theorem download_exactly_ordered_files (api : HdaApi) (d0 : HdaDict) (query : String) :
    (get_order_ids api (get_results_list api (get_job_id api d0 query))).order_ids.length
      = (get_order_ids api (get_results_list api (get_job_id api d0 query))).results.length ∧
    (download_data api (get_order_ids api (get_results_list api (get_job_id api d0 query)))).downloads
      = (get_order_ids api (get_results_list api (get_job_id api d0 query))).results.zip
          (get_order_ids api (get_results_list api (get_job_id api d0 query))).order_ids ∧
    (download_data api (get_order_ids api (get_results_list api (get_job_id api d0 query)))).downloads.map
        Prod.fst
      = (get_order_ids api (get_results_list api (get_job_id api d0 query))).results ∧
    ∀ p ∈ (download_data api (get_order_ids api (get_results_list api (get_job_id api d0 query)))).downloads,
      p.2 = api.orderIdOf (api.jobIdOf query) p.1 := by
  refine ⟨by simp [get_order_ids, get_results_list, get_job_id], rfl, ?_, ?_⟩
  · show ((api.resultsOf (api.jobIdOf query)).zip
        ((api.resultsOf (api.jobIdOf query)).map (api.orderIdOf (api.jobIdOf query)))).map Prod.fst
      = api.resultsOf (api.jobIdOf query)
    rw [List.map_fst_zip]
    simp
  · intro p hp
    have hzip : ∀ {β : Type} (l : List String) (g : String → β),
        l.zip (l.map g) = l.map fun a => (a, g a) := by
      intro β l g
      induction l with
      | nil => rfl
      | cons x xs ih => simp [ih]
    have : (download_data api (get_order_ids api (get_results_list api (get_job_id api d0 query)))).downloads
        = (api.resultsOf (api.jobIdOf query)).map
            (fun a => (a, api.orderIdOf (api.jobIdOf query) a)) := by
      show ((api.resultsOf (api.jobIdOf query)).zip
          ((api.resultsOf (api.jobIdOf query)).map (api.orderIdOf (api.jobIdOf query)))) = _
      rw [hzip]
    rw [this] at hp
    obtain ⟨a, _, rfl⟩ := List.mem_map.mp hp
    rfl

/-- Claim C6: `get_job_id` stores the job ID the HDA API returned for
the submitted request in `hda_dict`, and the later workflow calls
operate on that very job ID read back from `hda_dict`:
`get_results_list` lists the results of that job, `get_order_ids`
orders the files of that job, and neither call changes the stored job
ID. -/
theorem job_id_stable_across_calls (api : HdaApi) (d0 : HdaDict) (query : String) :
    (get_job_id api d0 query).job_id = some (api.jobIdOf query) ∧
    (get_results_list api (get_job_id api d0 query)).job_id = some (api.jobIdOf query) ∧
    (get_order_ids api (get_results_list api (get_job_id api d0 query))).job_id
      = some (api.jobIdOf query) ∧
    (get_results_list api (get_job_id api d0 query)).results
      = api.resultsOf (api.jobIdOf query) ∧
    (get_order_ids api (get_results_list api (get_job_id api d0 query))).order_ids
      = (api.resultsOf (api.jobIdOf query)).map (api.orderIdOf (api.jobIdOf query)) :=
  ⟨rfl, rfl, rfl, rfl, rfl⟩

/-- Claim C7: both failure handlers of the notebooks — the `json.load`
block of the how-to notebook and the unzip block of the marine-heatwaves
notebook — suppress any exception raised in their `try` body: the bare
`except:` prints exactly its fixed message, the statement returns
normally (nothing is re-raised), and the body is not retried (it ran
exactly once). -/
theorem except_handlers_print_only (b1 : PyResult String) (b2 : PyResult Unit)
    (e1 e2 : String) (h1 : b1 = .raised e1) (h2 : b2 = .raised e2) :
    load_json_descriptor b1 =
      (none, ["Your JSON file is not in the correct format, or is not found, please check it!"], 1) ∧
    unzip_try b2 = (none, ["Failed to unzip...."], 1) := by
  subst h1; subst h2; exact ⟨rfl, rfl⟩

/-- Witness for claim C7: a failed file open and a corrupt zip archive. -/
theorem except_handlers_print_only_witness :
    load_json_descriptor (.raised "FileNotFoundError") =
      (none, ["Your JSON file is not in the correct format, or is not found, please check it!"], 1) ∧
    unzip_try (.raised "BadZipFile") = (none, ["Failed to unzip...."], 1) :=
  except_handlers_print_only (.raised "FileNotFoundError") (.raised "BadZipFile")
    "FileNotFoundError" "BadZipFile" rfl rfl

/-- Claim C8: the unzip loop removes a downloaded `.zip` file only
after its extraction succeeded.  When extraction raises, `os.remove`
does not run — the file system is unchanged except for the printed
failure message, and the zip file survives the whole loop; files whose
extension is not `.zip` are never unzipped or removed; when extraction
succeeds, the file is removed and recorded as extracted. -/
theorem unzip_remove_only_after_success (extractOk : String → Bool) (st : UnzipState)
    (f : String) (filenames : List String) :
    (splitext_ext f = ".zip" → extractOk f = false →
        unzip_step extractOk st f =
          { st with printed := st.printed ++ ["Unzipping file", "Failed to unzip...."] }) ∧
    (splitext_ext f ≠ ".zip" → unzip_step extractOk st f = st) ∧
    (splitext_ext f = ".zip" → extractOk f = true →
        (unzip_step extractOk st f).files = st.files.erase f ∧
        (unzip_step extractOk st f).extracted = st.extracted ++ [f]) ∧
    (f ∈ st.files → splitext_ext f = ".zip" → extractOk f = false →
        f ∈ (unzip_loop extractOk st filenames).files) := by
  refine ⟨fun hz hf => by rw [unzip_step, if_pos hz, hf]; rfl,
          fun hz => by rw [unzip_step, if_neg hz],
          fun hz hf => by rw [unzip_step, if_pos hz, hf]; exact ⟨rfl, rfl⟩,
          ?_⟩
  intro hmem hz hf
  induction filenames generalizing st with
  | nil => exact hmem
  | cons g rest ih =>
      show f ∈ (unzip_loop extractOk (unzip_step extractOk st g) rest).files
      apply ih
      rw [unzip_step]
      by_cases hgz : splitext_ext g = ".zip"
      · rw [if_pos hgz]
        by_cases hgok : extractOk g = true
        · rw [hgok]
          simp only [if_pos rfl]
          have hne : f ≠ g := fun hfg => by rw [hfg] at hf; rw [hf] at hgok; cases hgok
          exact List.mem_erase_of_ne hne |>.mpr hmem
        · rw [Bool.not_eq_true] at hgok
          rw [hgok]
          exact hmem
      · rw [if_neg hgz]
        exact hmem

/-- Witness for claim C8: a zip file whose extraction always fails is
kept, printed about, and survives the loop. -/
theorem unzip_remove_only_after_success_witness :
    unzip_step (fun _ => false) ⟨["a.zip"], [], []⟩ "a.zip" =
      ⟨["a.zip"], [], ["Unzipping file", "Failed to unzip...."]⟩ ∧
    "a.zip" ∈ (unzip_loop (fun _ => false) ⟨["a.zip"], [], []⟩ ["a.zip"]).files :=
  ⟨(unzip_remove_only_after_success (fun _ => false) ⟨["a.zip"], [], []⟩ "a.zip" ["a.zip"]).1
      (by decide) rfl,
   (unzip_remove_only_after_success (fun _ => false) ⟨["a.zip"], [], []⟩ "a.zip" ["a.zip"]).2.2.2
      (by decide) (by decide) rfl⟩

/-- Claim C9: `download_data` prints one progress report per downloaded
file — the target path in the download directory, the file size, a
running progress bar with the transfer rate, a completion message and
the elapsed time — and the printout recorded in the how-to notebook is
exactly one such report for the downloaded file
`waves_spain_forecast.nc`. -/
theorem download_progress_printout (api : HdaApi) (d : HdaDict) :
    (download_data api d).printed =
      (d.results.zip d.order_ids).map (fun p =>
        download_print_lines (d.download_dir_path ++ p.1) (api.sizeStrOf p.1)
          (api.barStrOf p.1) (api.rateStrOf p.1) (api.progStrOf p.1)
          (api.avgRateStrOf p.1) (api.elapsedStrOf p.1)) ∧
    (∀ block ∈ (download_data api d).printed,
        ∃ path size bar rate prog avg elapsed,
          block = download_print_lines path size bar rate prog avg elapsed) ∧
    download_output =
      download_print_lines
        "/home/javitausia/Documentos/AIFEM/wekeo-jupyter-lab/wekeo-hda/data/waves_spain_forecast.nc"
        "     0.21" progress_bar_full
        "     16.82" "    0.21" "15885.94" "0.013772182999999938" := by
  refine ⟨rfl, ?_, by decide⟩
  intro block hb
  rw [show (download_data api d).printed =
      (d.results.zip d.order_ids).map (fun p =>
        download_print_lines (d.download_dir_path ++ p.1) (api.sizeStrOf p.1)
          (api.barStrOf p.1) (api.rateStrOf p.1) (api.progStrOf p.1)
          (api.avgRateStrOf p.1) (api.elapsedStrOf p.1)) from rfl] at hb
  obtain ⟨p, _, rfl⟩ := List.mem_map.mp hb
  exact ⟨_, _, _, _, _, _, _, rfl⟩

/-- Claim C10, order lemma: the lexicographic comparison of character
lists is transitive. -/
theorem charLe_trans : ∀ (a b c : List Char),
    charLe a b = true → charLe b c = true → charLe a c = true
  | [], _, _, _, _ => rfl
  | _ :: _, [], _, hab, _ => by simp [charLe] at hab
  | _ :: _, _ :: _, [], _, hbc => by simp [charLe] at hbc
  | a :: as, b :: bs, c :: cs, hab, hbc => by
      simp only [charLe] at hab hbc ⊢
      by_cases h1 : a = b <;> by_cases h2 : b = c
      · subst h1; subst h2
        simp only [if_pos rfl] at hab hbc ⊢
        exact charLe_trans as bs cs hab hbc
      · subst h1
        simp only [if_pos rfl] at hab
        simp only [if_neg h2, decide_eq_true_eq] at hbc
        simp only [if_neg h2, decide_eq_true_eq]
        exact hbc
      · subst h2
        simp only [if_pos rfl] at hbc
        simp only [if_neg h1, decide_eq_true_eq] at hab ⊢
        exact hab
      · simp only [if_neg h1, decide_eq_true_eq] at hab
        simp only [if_neg h2, decide_eq_true_eq] at hbc
        have hac : a < c := lt_trans hab hbc
        simp only [if_neg (ne_of_lt hac), decide_eq_true_eq]
        exact hac

/-- Claim C10, order lemma: the lexicographic comparison of character
lists is total. -/
theorem charLe_total : ∀ (a b : List Char), charLe a b || charLe b a
  | [], _ => by simp [charLe]
  | _ :: _, [] => by simp [charLe]
  | a :: as, b :: bs => by
      simp only [charLe]
      by_cases h : a = b
      · subst h
        simp only [if_pos rfl]
        exact charLe_total as bs
      · rcases lt_or_gt_of_ne h with hlt | hgt
        · simp [if_neg h, hlt]
        · simp [if_neg h, if_neg (Ne.symm h), hgt]

/-- Claim C10, order lemma: the lexicographic comparison of character
lists is antisymmetric. -/
theorem charLe_antisymm : ∀ (a b : List Char),
    charLe a b = true → charLe b a = true → a = b
  | [], [], _, _ => rfl
  | [], _ :: _, _, hba => by simp [charLe] at hba
  | _ :: _, [], hab, _ => by simp [charLe] at hab
  | a :: as, b :: bs, hab, hba => by
      simp only [charLe] at hab hba
      by_cases h : a = b
      · subst h
        simp only [if_pos rfl] at hab hba
        rw [charLe_antisymm as bs hab hba]
      · simp only [if_neg h, decide_eq_true_eq] at hab
        simp only [if_neg (Ne.symm h), decide_eq_true_eq] at hba
        exact absurd hba (lt_asymm hab)

/-- Claim C10, order lemma: prepending a common run of characters
preserves the lexicographic comparison. -/
theorem charLe_append_left : ∀ (d a b : List Char),
    charLe a b = true → charLe (d ++ a) (d ++ b) = true
  | [], _, _, h => h
  | x :: xs, a, b, h => by
      simp only [List.cons_append, charLe, if_pos rfl]
      exact charLe_append_left xs a b h

/-- Claim C10, order lemma lifted to Python strings: transitivity. -/
theorem pyStrLe_trans (a b c : String) : pyStrLe a b → pyStrLe b c → pyStrLe a c :=
  charLe_trans a.data b.data c.data

/-- Claim C10, order lemma lifted to Python strings: totality. -/
theorem pyStrLe_total (a b : String) : pyStrLe a b || pyStrLe b a :=
  charLe_total a.data b.data

/-- Claim C10, order lemma lifted to Python strings: antisymmetry. -/
theorem pyStrLe_antisymm (a b : String) :
    pyStrLe a b = true → pyStrLe b a = true → a = b := by
  intro hab hba
  cases a; cases b
  exact congrArg String.mk (charLe_antisymm _ _ hab hba)

/-- Claim C10, order lemma lifted to Python strings: a common leading
string preserves the comparison. -/
theorem pyStrLe_append_left (d a b : String) (h : pyStrLe a b = true) :
    pyStrLe (d ++ a) (d ++ b) = true := by
  show charLe (d ++ a).data (d ++ b).data = true
  have hdata : ∀ (u v : String), (u ++ v).data = u.data ++ v.data := fun u v => rfl
  rw [hdata, hdata]
  exact charLe_append_left d.data a.data b.data h

/-- Claim C10: sorting the glob result of the SST download directory
lexicographically (Python `sorted`) returns the download-loop order
itself, whatever order glob returned the files in: the 12 REP files
(years 2008–2019) come first, then the 2 XNRT files (2020–2021), the
filenames are strictly increasing, and their start dates are strictly
increasing, so the concatenated time series is monotone in time. -/
theorem sst_files_chronological (dir : String) (l : List String)
    (h : l.Perm (user_filenames.map (dir ++ ·))) :
    py_sorted l = user_filenames.map (dir ++ ·) ∧
    (user_filenames.take 12).all (fun f => strStarts f "METOFFICE-GLO-SST-L4-REP_") = true ∧
    (user_filenames.drop 12).all (fun f => strStarts f "METOFFICE-GLO-SST-L4-XNRT_") = true ∧
    List.Pairwise (fun a b => pyStrLt a b = true) user_filenames ∧
    List.Pairwise (fun a b => pyStrLt a b = true) (user_filenames.map sst_file_start_date) := by
  refine ⟨?_, by decide, by decide, by decide, by decide⟩
  haveI : IsAntisymm String (fun a b => pyStrLe a b = true) := ⟨pyStrLe_antisymm⟩
  have hsorted_target : List.Pairwise (fun a b => pyStrLe a b = true) user_filenames := by decide
  have hmap : List.Pairwise (fun a b => pyStrLe a b = true) (user_filenames.map (dir ++ ·)) :=
    hsorted_target.map _ (fun a b hab => pyStrLe_append_left dir a b hab)
  have hperm : (py_sorted l).Perm (user_filenames.map (dir ++ ·)) :=
    (List.mergeSort_perm l pyStrLe).trans h
  have hsorted_sort : List.Pairwise (fun a b => pyStrLe a b = true) (py_sorted l) :=
    List.sorted_mergeSort pyStrLe_trans pyStrLe_total l
  exact List.eq_of_perm_of_sorted hperm hsorted_sort hmap

/-- Witness for claim C10: the glob result listed in download order
under a concrete download directory. -/
theorem sst_files_chronological_witness :
    py_sorted (user_filenames.map (fun f => "/products/" ++ f))
      = user_filenames.map (fun f => "/products/" ++ f) ∧
    (user_filenames.take 12).all (fun f => strStarts f "METOFFICE-GLO-SST-L4-REP_") = true ∧
    (user_filenames.drop 12).all (fun f => strStarts f "METOFFICE-GLO-SST-L4-XNRT_") = true ∧
    List.Pairwise (fun a b => pyStrLt a b = true) user_filenames ∧
    List.Pairwise (fun a b => pyStrLt a b = true) (user_filenames.map sst_file_start_date) :=
  sst_files_chronological "/products/" (user_filenames.map fun f => "/products/" ++ f)
    (List.Perm.refl _)
